import Mathlib

/-!
Formal model of the dowhen event registry and dispatch engine
(src/dowhen: util.py, instrumenter.py), with the handler-side pieces that
live in files absent from src/ modelled from the specification where noted.

Conventions used throughout:
* Python `dict` / `collections.OrderedDict` / `weakref.WeakValueDictionary`
  are modelled as insertion-ordered association lists with unique keys;
  `dictGet` / `dictSet` mirror `d[k]` lookup and `d[k] = v` assignment.
* Python code objects are modelled by `CodeTree`: the data `get_line_numbers`
  reads from them (identity, source lines if retrievable, first line number,
  the line numbers of `co_lines()`, and the nested code objects in
  `co_consts`).
* Machine integers do not overflow in the modelled code paths, so `Nat` is
  used for counters, ids and line numbers.
-/

set_option maxRecDepth 8000

namespace DoWhen

/-- Model of Python dict lookup `d.get(k)` / `d[k]`: first pair with the key. -/
def dictGet {κ α : Type} [DecidableEq κ] : List (κ × α) → κ → Option α
  | [], _ => none
  | (k, v) :: rest, key => if k = key then some v else dictGet rest key

/-- Model of Python dict assignment `d[k] = v`: replace in place if the key is
present (keeping its position, as CPython dicts do), else append. -/
def dictSet {κ α : Type} [DecidableEq κ] : List (κ × α) → κ → α → List (κ × α)
  | [], key, val => [(key, val)]
  | (k, v) :: rest, key, val =>
      if k = key then (k, val) :: rest else (k, v) :: dictSet rest key val

/-! ## Code objects (`types.CodeType` as read by `util.py`) -/

/-- The fields of a Python code object that `get_line_numbers` and
`get_all_code_objects` consume: an identity, the source lines as
`inspect.getsourcelines` would return them (`none` when the source is not
retrievable and `inspect` raises `OSError`), the starting line number, and
the line numbers appearing in `co_lines()` (entries whose line is not None). -/
structure CodeInfo where
  cid : Nat
  src : Option (List String)
  firstLine : Nat
  coLines : List Nat
deriving DecidableEq

mutual
/-- A code object together with the code objects nested in its `co_consts`. -/
inductive CodeTree where
  | node (info : CodeInfo) (children : CodeForest)

/-- The list of code objects found in a code object's `co_consts`. -/
inductive CodeForest where
  | nil
  | cons (c : CodeTree) (cs : CodeForest)
end

def CodeTree.info : CodeTree → CodeInfo
  | .node i _ => i

mutual
/-- `get_all_code_objects` (util.py lines 33-48): the stack-based loop pops the
last element and pushes the children, so it emits the root first and then the
children's subtrees in reverse order. -/
def CodeTree.allObjs : CodeTree → List CodeTree
  | .node i cs => .node i cs :: CodeForest.allObjsRev cs

/-- Helper for `CodeTree.allObjs`: traverses a forest in reverse order, as the
stack discipline of `get_all_code_objects` does. -/
def CodeForest.allObjsRev : CodeForest → List CodeTree
  | .nil => []
  | .cons c cs => CodeForest.allObjsRev cs ++ CodeTree.allObjs c
end

/-- Python `line.strip()` (whitespace removal at both ends). -/
def pyStrip (s : String) : String := s.trim

/-- The decorator-skipping loop of `getrealsourcelines` (util.py lines 22-26):
drop leading lines whose stripped text starts with `@`, bumping the start
line. (Python would raise IndexError on an all-decorator file; that input does
not arise for code objects with source.) -/
def dropDecorators : List String → Nat → List String × Nat
  | [], s => ([], s)
  | l :: rest, s =>
      if (pyStrip l).startsWith "@" then dropDecorators rest (s + 1)
      else (l :: rest, s)

/-- `getrealsourcelines` (util.py lines 17-30): source lines with leading
decorators skipped; on `OSError` (no retrievable source) it returns
`([], co_firstlineno)`. Note this function catches the `OSError` itself, so
the `except OSError` at util.py lines 63-67 is unreachable and
`get_line_numbers` always proceeds with `has_source = True`. -/
def getrealsourcelines (c : CodeTree) : List String × Nat :=
  match c.info.src with
  | none => ([], c.info.firstLine)
  | some lines => dropDecorators lines c.info.firstLine

/-- One location descriptor (`IdentifierType`: `int | str | re.Pattern`).
A compiled regex is modelled by its match-at-start predicate on a (stripped)
line, which is all `get_line_numbers` uses of it. -/
inductive Identifier where
  | line (n : Nat)
  | strPat (s : String)
  | regexPat (p : String → Bool)

/-- The loop at util.py lines 79-85: line numbers (counted from `startLine`)
of the lines whose stripped text satisfies the descriptor's test. A Python
`set` of line numbers is modelled as a duplicate-free list; the numbers
`startLine + i` produced here are pairwise distinct. -/
def matchedLines (lines : List String) (startLine : Nat) (p : String → Bool) :
    List Nat :=
  lines.enum.filterMap fun iv =>
    if p (pyStrip iv.2) then some (startLine + iv.1) else none

/-- The candidate line set of a single descriptor (util.py lines 69-87):
an explicit integer is a singleton; a string matches lines whose stripped
text starts with it; a regex matches lines whose stripped text it matches. -/
def candList (c : CodeTree) (i : Identifier) : List Nat :=
  let ls := getrealsourcelines c
  match i with
  | .line n => [n]
  | .strPat s => matchedLines ls.1 ls.2 (fun line => line.startsWith s)
  | .regexPat p => matchedLines ls.1 ls.2 p

/-- The candidate line set of a descriptor, as a finite set. -/
def candLines (c : CodeTree) (i : Identifier) : Finset Nat :=
  (candList c i).toFinset

/-- `set.intersection(*line_numbers_sets)` over the collected per-descriptor
sets (util.py line 93). Python raises TypeError on an empty collection; the
callers modelled here always pass at least one descriptor, and the empty case
is given the junk value `∅`. -/
def intersectAll : List (Finset Nat) → Finset Nat
  | [] => ∅
  | s :: ss => ss.foldl (· ∩ ·) s

/-- True when some descriptor's candidate set is empty, in which case the
per-descriptor loop returns `{}` early (util.py lines 89-90). -/
def hasEmptyCand (c : CodeTree) (idents : List Identifier) : Bool :=
  idents.any fun i => (candList c i).isEmpty

/-- `agreed_line_numbers` (util.py line 93) as a duplicate-free list:
intersection of the per-descriptor candidate sets. -/
def agreedList (c : CodeTree) (idents : List Identifier) : List Nat :=
  match idents with
  | [] => []
  | i :: rest =>
      rest.foldl (fun acc j => acc.filter fun n => (candList c j).contains n)
        (candList c i)

/-- The comparison at util.py lines 103-109 deciding whether `sub` replaces
`existing` as the owner of a line: Python evaluates
`len(inspect.getsource(existing).splitlines()) <
 len(inspect.getsource(sub_code).splitlines())`
and on `OSError` (either side lacking source) keeps `existing`. So `sub` wins
exactly when both have source and `existing`'s source has strictly fewer
lines. -/
def spanReplace (existing sub : CodeTree) : Bool :=
  match existing.info.src, sub.info.src with
  | some e, some s => e.length < s.length
  | _, _ => false

/-- The inner loop at util.py lines 97-109 for one `sub_code`: record each of
its `co_lines()` line numbers in `line_to_code`, replacing a previous owner
per `spanReplace`. -/
def updateLineMap (m : List (Nat × CodeTree)) (sub : CodeTree) :
    List (Nat × CodeTree) :=
  sub.info.coLines.foldl
    (fun m ln =>
      match dictGet m ln with
      | none => dictSet m ln sub
      | some existing =>
          if spanReplace existing sub then dictSet m ln sub else m)
    m

/-- `line_to_code` (util.py lines 95-109): fold `updateLineMap` over all code
objects in `get_all_code_objects` order. -/
def lineToCodeMap (c : CodeTree) : List (Nat × CodeTree) :=
  c.allObjs.foldl updateLineMap []

/-- The identity of the code object that `line_to_code` assigns to a line. -/
def lineOwnerId (c : CodeTree) (ln : Nat) : Option Nat :=
  (dictGet (lineToCodeMap c) ln).map fun t => t.info.cid

/-- Insert into a sorted list, keeping it sorted ascending. -/
def insertSorted (n : Nat) : List Nat → List Nat
  | [] => [n]
  | m :: rest => if n ≤ m then n :: m :: rest else m :: insertSorted n rest

/-- `line_numbers.sort()` (util.py lines 116-117): ascending order. -/
def sortNats (l : List Nat) : List Nat := l.foldr insertSorted []

/-- The lines appearing in the mapping `get_line_numbers` returns
(util.py lines 111-119): the agreed lines that some code object claims, or
`[]` after the early `return {}` for an empty candidate set. -/
def resolvedList (c : CodeTree) (idents : List Identifier) : List Nat :=
  if hasEmptyCand c idents then []
  else (agreedList c idents).filter fun ln => (lineOwnerId c ln).isSome

/-- The set of lines appearing in the mapping `get_line_numbers` returns. -/
def resolvedLineSet (c : CodeTree) (idents : List Identifier) : Finset Nat :=
  (resolvedList c idents).toFinset

/-- The sorted line list that the returned mapping associates with the code
object of identity `subId` (util.py lines 111-119); `[]` when that code object
gets no lines. -/
def getLineNumbersFor (c : CodeTree) (idents : List Identifier) (subId : Nat) :
    List Nat :=
  if hasEmptyCand c idents then []
  else
    sortNats
      ((agreedList c idents).filter fun ln =>
        decide (lineOwnerId c ln = some subId))

/-- The full mapping returned by `get_line_numbers`, keyed by code-object
identity. Python dict key order here comes from iterating a set (unspecified
order); the model lists keys in `get_all_code_objects` order, which fixes a
canonical representative of the same mapping. -/
def getLineNumbersMap (c : CodeTree) (idents : List Identifier) :
    List (Nat × List Nat) :=
  if hasEmptyCand c idents then []
  else
    (c.allObjs.map fun t => t.info.cid).filterMap fun cid =>
      let ls :=
        sortNats
          ((agreedList c idents).filter fun ln =>
            decide (lineOwnerId c ln = some cid))
      if ls.isEmpty then none else some (cid, ls)

/-! ### Concrete code objects used in counterexamples and witnesses

`outerTree` mirrors a two-line function whose second physical line both
contains instructions of the outer code object (the call) and hosts a nested
lambda, as in

```
1  def outer(f):
2      return f(lambda x: x + 1)
```

The outer code object spans two source lines and has instructions on line 2;
the nested lambda's code object spans one source line (the lambda text) and
also has instructions on line 2. -/

def lamTree : CodeTree :=
  .node ⟨1, some ["lambda x: x + 1"], 2, [2]⟩ .nil

def outerTree : CodeTree :=
  .node ⟨0, some ["def outer(f):", "    return f(lambda x: x + 1)"], 1, [2]⟩
    (.cons lamTree .nil)

example : outerTree.allObjs.map (fun t => t.info.cid) = [0, 1] := by decide

example : lineOwnerId outerTree 2 = some 0 := by decide

example : getLineNumbersMap outerTree [.line 2] = [(0, [2])] := by decide

example : resolvedLineSet outerTree [.line 3, .line 3] = ∅ := by decide

/-! ## Instrumenter (instrumenter.py): registry, submit, remove, dispatch -/

/-- The three event kinds of the registry (`"line"`, `"start"`, `"return"`). -/
inductive EventType where
  | line
  | start
  | ret
deriving DecidableEq

/-- One resolved event of a trigger, as `Instrumenter.submit` reads it:
`event.code` (None meaning any code), `event.event_type`, and for line events
`event.event_data["line_number"]`. Code objects are referred to by identity,
which is how the registry keys them. -/
structure TEvent where
  code : Option Nat
  etype : EventType
  lineNumber : Option Nat
deriving DecidableEq

/-- The part of a Trigger that the Instrumenter consumes: its resolved
events (trigger.py is not in src/; this mirrors exactly the fields
instrumenter.py accesses). -/
structure Trigger where
  events : List TEvent
deriving DecidableEq

/-- The part of an EventHandler that the Instrumenter consumes: its Python
identity `id(event_handler)`, its `removed` flag, and its trigger
(handler.py is not in src/; per spec section 4.4 `remove` transitions the
handler to the terminal Removed state, modelled by `removed = true`). -/
structure Handler where
  hid : Nat
  removed : Bool
  trigger : Trigger
deriving DecidableEq

/-- A per-line `weakref.WeakValueDictionary`, keyed by `id(event_handler)`.
The stored value models the weak reference's referent. -/
abbrev HandlerDict := List (Nat × Handler)

instance : DecidableEq HandlerDict := fun a b => instDecidableEqList a b

/-- The per-event-type dict, keyed by line number (None for start/return). -/
abbrev LineDict := List (Option Nat × HandlerDict)

instance : DecidableEq LineDict := fun a b => instDecidableEqList a b

/-- The per-code dict, keyed by event type. -/
abbrev TypeDict := List (EventType × LineDict)

instance : DecidableEq TypeDict := fun a b => instDecidableEqList a b

/-- `Instrumenter.handlers`: code (None = any code) to event type to line to
handler references. -/
abbrev Registry := List (Option Nat × TypeDict)

instance : DecidableEq Registry := fun a b => instDecidableEqList a b

/-- The Instrumenter's state: the registry, the subscription bitmasks held by
`sys.monitoring` (`get_events` / `get_local_events` per code object), the two
restart-scheduling flags, and a count of `sys.monitoring.restart_events()`
calls made (the observable effect of `_restart_events_soon`). -/
structure InstrState where
  registry : Registry
  globalEvents : Nat
  localEvents : List (Nat × Nat)
  restartScheduled : Bool
  pendingRestart : Bool
  restartCalls : Nat
deriving DecidableEq

/-- A fresh Instrumenter: empty registry, no events subscribed anywhere. -/
def initInstr : InstrState :=
  { registry := [], globalEvents := 0, localEvents := [],
    restartScheduled := false, pendingRestart := false, restartCalls := 0 }

/-- `self.handlers[code][etype][ln][hid] = ref` with the defaultdict layers
creating missing inner dicts (instrumenter.py lines 35-37, 106-112). -/
def regSet (r : Registry) (code : Option Nat) (et : EventType) (ln : Option Nat)
    (hid : Nat) (h : Handler) : Registry :=
  let td := (dictGet r code).getD []
  let ld := (dictGet td et).getD []
  let hd := (dictGet ld ln).getD []
  dictSet r code (dictSet td et (dictSet ld ln (dictSet hd hid h)))

/-- The registry insertions of `Instrumenter.submit` (instrumenter.py lines
96-112): line events are stored under their line number, start/return events
under the key None, each keyed by `id(event_handler)`. -/
def submitEvents (r : Registry) (h : Handler) : Registry :=
  h.trigger.events.foldl
    (fun r e =>
      match e.etype with
      | .line => regSet r e.code .line e.lineNumber h.hid h
      | .start => regSet r e.code .start none h.hid h
      | .ret => regSet r e.code .ret none h.hid h)
    r

/-- `Instrumenter._schedule_restart_events` followed by
`_restart_events_soon` (instrumenter.py lines 116-132) in the synchronous
branch (no running asyncio event loop, so `asyncio.get_running_loop()` raises
and the callback runs immediately): if no restart is scheduled, both flags are
raised, `sys.monitoring.restart_events()` runs, and both flags are cleared. -/
def scheduleRestart (st : InstrState) : InstrState :=
  if st.restartScheduled then st
  else
    { st with restartScheduled := false, pendingRestart := false,
              restartCalls := st.restartCalls + 1 }

/-- `Instrumenter.submit` (instrumenter.py lines 96-114): insert the handler
references, then schedule a restart-events tick. Note: no call to
`sys.monitoring.set_events` / `set_local_events` occurs anywhere in submit,
so the subscription bitmasks are untouched. -/
def submit (st : InstrState) (h : Handler) : InstrState :=
  scheduleRestart { st with registry := submitEvents st.registry h }

/-- Iterated re-submission of a single handler. -/
def submitN (h : Handler) : Nat → InstrState → InstrState
  | 0, st => st
  | n + 1, st => submitN h n (submit st h)

/-- The Python test `event_handler in handlers` where `handlers` is a
per-line `WeakValueDictionary` created by submit (instrumenter.py lines
224-230): dict membership iterates the keys, which are the integers
`id(event_handler)`, and Python equality between an `int` and an
`EventHandler` instance (neither type defines a cross-type `__eq__`) is
always `False`, so the test never succeeds. -/
def handlerInIdDict (d : HandlerDict) : Bool :=
  d.any fun _ => false

/-- The Python test `event_handler in handlers` where `handlers` is
`self.handlers[code][event_type]` for a start/return event (instrumenter.py
line 228): submit stores these as dicts keyed by line key (None), so the keys
are not handlers either and the test again never succeeds. -/
def handlerInLineDict (d : LineDict) : Bool :=
  d.any fun _ => false

/-- One iteration of the loop in `Instrumenter.remove_handler`
(instrumenter.py lines 215-255). The removal branch guarded by
`event_handler in handlers` is unreachable because that membership test is
always false (see `handlerInIdDict`); had it been reached, Python would raise
`AttributeError` since `WeakValueDictionary` has no `remove` method. Every
model of the unreachable branch yields the same function; it is rendered as
the identity. -/
def removeStep (s : InstrState) (e : TEvent) : InstrState :=
  match dictGet s.registry e.code with
  | none => s
  | some td =>
      match dictGet td e.etype with
      | none => s
      | some ld =>
          let contained : Bool :=
            match e.etype with
            | .line => handlerInIdDict ((dictGet ld e.lineNumber).getD [])
            | _ => handlerInLineDict ld
          if contained then s else s

/-- `Instrumenter.remove_handler` (instrumenter.py lines 213-255). -/
def removeHandler (st : InstrState) (h : Handler) : InstrState :=
  h.trigger.events.foldl removeStep st

/-! ### Dispatch (`Instrumenter._process_handlers`) -/

/-- What a handler invocation `handler(frame, **kwargs)` returns, as far as
dispatch inspects it: the `sys.monitoring.DISABLE` sentinel or anything
else. -/
inductive Signal where
  | disable
  | cont
deriving DecidableEq

/-- The return value of `_process_handlers`: `sys.monitoring.DISABLE` or
`None`. -/
inductive PResult where
  | disable
  | noneR
deriving DecidableEq

/-- The first loop of `_process_handlers` (instrumenter.py lines 198-202):
dereference each reference and keep the live handlers whose `removed` flag is
not set, in order. -/
def activeHandlers (refs : List (Option Handler)) : List Handler :=
  refs.filterMap fun o =>
    match o with
    | some h => if h.removed then none else some h
    | none => none

/-- The second loop of `_process_handlers` (instrumenter.py lines 204-208):
invoke the active handlers in order; if an invocation returns the DISABLE
sentinel, return DISABLE at once, else fall through to `None`. The second
component records the sequence of invocations the loop performs (the code
calls `handler(frame, **kwargs)` exactly for these handlers, in this order).
`invoke` abstracts `EventHandler.__call__`, which lives in handler.py (not in
src/). -/
def runHandlers (invoke : Handler → Signal) : List Handler → PResult × List Handler
  | [] => (.noneR, [])
  | h :: rest =>
      match invoke h with
      | .disable => (.disable, [h])
      | .cont =>
          let r := runHandlers invoke rest
          (r.1, h :: r.2)

/-- `Instrumenter._process_handlers` (instrumenter.py lines 195-208), with
its invocation trace. -/
def processHandlers (refs : List (Option Handler)) (invoke : Handler → Signal) :
    PResult × List Handler :=
  runHandlers invoke (activeHandlers refs)

/-- A handler with a single line trigger on code 1, line 5, used as concrete
input below. -/
def hEx : Handler :=
  { hid := 7, removed := false, trigger := ⟨[⟨some 1, .line, some 5⟩]⟩ }

example :
    dictGet ((dictGet ((dictGet ((dictGet (submit initInstr hEx).registry
      (some 1)).getD []) EventType.line).getD []) (some 5)).getD []) 7 =
      some hEx := by decide

example : removeHandler (submit initInstr hEx) hEx = submit initInstr hEx := by
  decide

/-! ## Argument binding (`util.call_in_frame`) and action execution -/

/-- A Python value as far as argument binding distinguishes them: the frame
object passed for `_frame`, or an ordinary value. -/
inductive PyVal where
  | frameVal
  | num (n : Nat)
deriving DecidableEq

/-- A callable as `call_in_frame` consumes it: its declared positional
parameter names (what `get_func_args` returns) and its behaviour on the bound
arguments. -/
structure PyFunc where
  argNames : List String
  body : List PyVal → PyVal

/-- The body of the argument-binding loop of `call_in_frame` (util.py lines
218-229), for one declared name: `_frame` binds the frame, `_retval` binds
`kwargs["retval"]` and raises TypeError when absent, any other name is looked
up in `frame.f_locals` and raises TypeError when missing. `retval` is
`some`/`none` according to whether the caller passed a `retval` keyword. -/
def bindArg (locals : List (String × PyVal)) (retval : Option PyVal)
    (a : String) : Except String PyVal :=
  if a = "_frame" then .ok .frameVal
  else if a = "_retval" then
    match retval with
    | none => .error "You can only use _retval in return callbacks."
    | some rv => .ok rv
  else
    match dictGet locals a with
    | some v => .ok v
    | none => .error "Argument not found in frame locals."

/-- The loop itself: bind each declared name in order, stopping at the first
failure (the Python `raise` aborts the loop). -/
def gatherArgs (locals : List (String × PyVal)) (retval : Option PyVal) :
    List String → Except String (List PyVal)
  | [] => .ok []
  | a :: rest =>
      match bindArg locals retval a with
      | .error e => .error e
      | .ok v =>
          match gatherArgs locals retval rest with
          | .error e => .error e
          | .ok vs => .ok (v :: vs)

/-- `call_in_frame` (util.py lines 215-230): bind the arguments, then apply
the callable. -/
def callInFrame (f : PyFunc) (locals : List (String × PyVal))
    (retval : Option PyVal) : Except String PyVal :=
  match gatherArgs locals retval f.argNames with
  | .error e => .error e
  | .ok args => .ok (f.body args)

/-- Whether a call completed without raising. -/
def isOkE : Except String PyVal → Bool
  | .ok _ => true
  | .error _ => false

/-- Modelled from the spec: the action loop of an EventHandler invocation
(handler.py is not in src/). Per spec section 4.4 the actions run in order;
per section 7 a binding error "aborts that single action (and, by
propagation, the remainder of that handler's actions for this event)".
Returns how many actions completed and the error that aborted the run, if
any. -/
def runActions (locals : List (String × PyVal)) (retval : Option PyVal) :
    List PyFunc → Nat × Option String
  | [] => (0, none)
  | f :: rest =>
      match callInFrame f locals retval with
      | .error e => (0, some e)
      | .ok _ =>
          let r := runActions locals retval rest
          (r.1 + 1, r.2)

/-- Modelled from the spec: the result an EventHandler invocation hands back
to `_process_handlers` (handler.py is not in src/). Per spec section 7 a
binding error "must not crash the instrumented program's other handlers or
dispatch to subsequent handlers", so an aborted invocation returns normally
(not the DISABLE sentinel); when every action succeeds the handler returns
whatever signal its actions determine (`sig`, e.g. DISABLE for a breakpoint
convention). `actsOf` gives each handler's action list. -/
def invokeWithActions (actsOf : Handler → List PyFunc) (sig : Handler → Signal)
    (locals : List (String × PyVal)) (retval : Option PyVal) (h : Handler) :
    Signal :=
  match runActions locals retval (actsOf h) with
  | (_, some _) => .cont
  | (_, none) => sig h

/-! ## AdaptiveCache (util.py lines 131-208)

Python floats are modelled as exact rationals: the factors are the defaults
of the constructor as used by all three instantiations in util.py lines
210-212 (`growth_factor=1.2`, `shrink_factor=0.8`, `hit_ratio_threshold=0.7`,
`check_interval=100`), `int(x)` is floor, and the ratio comparisons
`hit_ratio > 0.7` and `hit_ratio < 0.35` are cleared of the division. The
hard floor 64 and ceiling 10000 are literals in `_adjust_cache_size`. -/

/-- The mutable state of an `AdaptiveCache` instance: the `OrderedDict` (front
= least recently used), `maxsize`, and the three counters. -/
structure CacheState where
  cache : List (Nat × Nat)
  maxsize : Nat
  hits : Nat
  misses : Nat
  accessCount : Nat
deriving DecidableEq

/-- `AdaptiveCache.__init__` with only `initial_size` supplied. -/
def cacheInit (initialSize : Nat) : CacheState :=
  { cache := [], maxsize := initialSize, hits := 0, misses := 0,
    accessCount := 0 }

/-- `AdaptiveCache._adjust_cache_size` (util.py lines 184-201): grow
multiplicatively below the ceiling when the hit ratio beats the threshold,
shrink multiplicatively above the floor when it is below half the threshold
(evicting LRU entries down to the new bound), then reset the ratio
counters. -/
def adjustCacheSize (s : CacheState) : CacheState :=
  if s.hits + s.misses = 0 then s
  else
    let s1 :=
      if 10 * s.hits > 7 * (s.hits + s.misses) ∧ s.maxsize < 10000 then
        { s with maxsize := min (s.maxsize * 6 / 5) 10000 }
      else if 20 * s.hits < 7 * (s.hits + s.misses) ∧ s.maxsize > 64 then
        let m := max (s.maxsize * 4 / 5) 64
        { s with maxsize := m, cache := s.cache.drop (s.cache.length - m) }
      else s
    { s1 with hits := 0, misses := 0 }

/-- `OrderedDict.move_to_end(key)`: move the (unique) entry with the key to
the most-recently-used end. Called only for present keys. -/
def moveToEnd (d : List (Nat × Nat)) (k : Nat) : List (Nat × Nat) :=
  match dictGet d k with
  | none => d
  | some v => (d.filter fun kv => kv.1 ≠ k) ++ [(k, v)]

/-- `AdaptiveCache._cleanup_cache` (util.py lines 203-208): evict a batch of
`max(1, len*0.1)` least-recently-used entries from the front. -/
def cleanupCache (s : CacheState) : CacheState :=
  { s with cache := s.cache.drop (max 1 (s.cache.length / 10)) }

/-- The hit/miss part of one `wrapper` call (util.py lines 155-170): on a hit
bump `hits` and move the key to the recently-used end; on a miss bump
`misses`, evict a batch if at capacity, and append the computed entry. -/
def cacheStep2 (compute : Nat → Nat) (s : CacheState) (k : Nat) : CacheState :=
  match dictGet s.cache k with
  | some _ => { s with hits := s.hits + 1, cache := moveToEnd s.cache k }
  | none =>
      let s1 := { s with misses := s.misses + 1 }
      let s2 := if s1.cache.length ≥ s1.maxsize then cleanupCache s1 else s1
      { s2 with cache := s2.cache ++ [(k, compute k)] }

/-- One call of the memoizing `wrapper` (util.py lines 147-170) on key `k`,
computing `compute k` on a miss: bump the access count, every 100th access
run `_adjust_cache_size` and reset the count, then serve the hit or miss. -/
def cacheAccess (compute : Nat → Nat) (s0 : CacheState) (k : Nat) : CacheState :=
  let s := { s0 with accessCount := s0.accessCount + 1 }
  let s :=
    if s.accessCount ≥ 100 then { adjustCacheSize s with accessCount := 0 }
    else s
  cacheStep2 compute s k

/-- A sequence of wrapper calls. -/
def runAccesses (compute : Nat → Nat) (s : CacheState) (ks : List Nat) :
    CacheState :=
  ks.foldl (cacheAccess compute) s

/-- `cache_clear` (util.py lines 173-177): empty the dict and zero all three
counters. -/
def cacheClear (s : CacheState) : CacheState :=
  { s with cache := [], hits := 0, misses := 0, accessCount := 0 }

example :
    (runAccesses id (cacheInit 64) ((List.range 150).map fun i => i % 3)).maxsize
      = 76 := by decide

/-- A code object without retrievable source (`inspect` raises OSError for
it); only its `co_lines()` line table is known. -/
def noSrcTree : CodeTree := .node ⟨3, none, 10, [10, 11]⟩ .nil

/-! ## Theorems about location resolution (claims C1, C6, C8) -/

lemma toFinset_filter_contains (a b : List Nat) :
    (a.filter fun n => b.contains n).toFinset = a.toFinset ∩ b.toFinset := by
  ext n
  simp [List.mem_filter]

lemma foldl_filter_toFinset (c : CodeTree) (js : List Identifier)
    (acc : List Nat) :
    (js.foldl (fun acc j => acc.filter fun n => (candList c j).contains n)
        acc).toFinset =
      (js.map (candLines c)).foldl (· ∩ ·) acc.toFinset := by
  induction js generalizing acc with
  | nil => rfl
  | cons j js ih =>
      simp only [List.foldl, List.map]
      rw [ih, toFinset_filter_contains]
      rfl

lemma agreedList_toFinset (c : CodeTree) (i : Identifier)
    (rest : List Identifier) :
    (agreedList c (i :: rest)).toFinset =
      intersectAll ((i :: rest).map (candLines c)) := by
  simpa [agreedList, intersectAll, candLines] using
    foldl_filter_toFinset c rest (candList c i)

lemma hasEmptyCand_eq_false (c : CodeTree) (idents : List Identifier)
    (hne : ∀ i ∈ idents, candLines c i ≠ ∅) :
    hasEmptyCand c idents = false := by
  rw [hasEmptyCand, List.any_eq_false]
  intro i hi
  have h := hne i hi
  rw [candLines] at h
  cases hc : candList c i with
  | nil => rw [hc] at h; simp at h
  | cons x xs => simp [hc]

lemma toFinset_filter_dec (a : List Nat) (p : Nat → Bool) :
    (a.filter p).toFinset = a.toFinset.filter fun n => p n = true := by
  ext n
  simp [List.mem_filter]

lemma filter_foldl_inter (p : Nat → Prop) [DecidablePred p]
    (ss : List (Finset Nat)) (a : Finset Nat) :
    (ss.foldl (· ∩ ·) a).filter p =
      (ss.map fun s => s.filter p).foldl (· ∩ ·) (a.filter p) := by
  induction ss generalizing a with
  | nil => rfl
  | cons s ss ih =>
      simp only [List.foldl, List.map]
      rw [ih, Finset.filter_inter_distrib]

lemma resolvedLineSet_eq_filter (c : CodeTree) (i : Identifier)
    (rest : List Identifier) (hne : ∀ j ∈ i :: rest, candLines c j ≠ ∅) :
    resolvedLineSet c (i :: rest) =
      (intersectAll ((i :: rest).map (candLines c))).filter fun ln =>
        (lineOwnerId c ln).isSome = true := by
  rw [resolvedLineSet, resolvedList, hasEmptyCand_eq_false c _ hne]
  simp only [Bool.false_eq_true, if_false]
  rw [toFinset_filter_dec, agreedList_toFinset]

lemma resolvedLineSet_single (c : CodeTree) (i : Identifier)
    (hne : candLines c i ≠ ∅) :
    resolvedLineSet c [i] =
      (candLines c i).filter fun ln => (lineOwnerId c ln).isSome = true := by
  have h := resolvedLineSet_eq_filter c i [] (by simpa using hne)
  simpa [intersectAll] using h

/-- Claim C6 (amended): for two or more descriptors with non-empty candidate
sets, the set of lines in the mapping `get_line_numbers` returns equals the
intersection of the per-descriptor *resolved* line sets (the candidate sets
restricted to lines claimed by some code object in `line_to_code`); the
intersection of the raw candidate sets additionally contains lines no code
object claims (see the counterexample). -/
theorem resolved_eq_intersection_of_resolved (c : CodeTree)
    (idents : List Identifier) (h2 : 2 ≤ idents.length)
    (hne : ∀ i ∈ idents, candLines c i ≠ ∅) :
    resolvedLineSet c idents =
      intersectAll (idents.map fun i => resolvedLineSet c [i]) := by
  match idents, h2 with
  | i :: rest, _ =>
    rw [resolvedLineSet_eq_filter c i rest hne]
    have hmap :
        (i :: rest).map (fun j => resolvedLineSet c [j]) =
          ((i :: rest).map (candLines c)).map fun s =>
            s.filter fun ln => (lineOwnerId c ln).isSome = true := by
      rw [List.map_map]
      exact List.map_congr_left fun j hj =>
        resolvedLineSet_single c j (hne j hj)
    rw [hmap]
    simp only [List.map, intersectAll]
    exact filter_foldl_inter _ _ _

/-- Witness for the amended claim C6 at a concrete input. -/
theorem resolved_eq_intersection_witness :
    resolvedLineSet outerTree [Identifier.line 2, Identifier.line 2] =
      intersectAll ([Identifier.line 2, Identifier.line 2].map fun i =>
        resolvedLineSet outerTree [i]) :=
  resolved_eq_intersection_of_resolved outerTree _ (by decide)
    (by
      intro i hi
      rcases List.mem_cons.mp hi with h | h
      · subst h; decide
      · rcases List.mem_singleton.mp h with rfl; decide)

/-- Counterexample to claim C6 as stated: both descriptors are the explicit
line 3, a line of `outerTree` that no code object's `co_lines()` claims (it is
not even inside the function). Both candidate sets are the non-empty set
containing 3 and their intersection contains 3, but `get_line_numbers` resolves
no lines because line 3 is absent from `line_to_code`. -/
theorem resolved_ne_candidate_intersection :
    2 ≤ ([Identifier.line 3, Identifier.line 3] : List Identifier).length ∧
    candLines outerTree (Identifier.line 3) ≠ ∅ ∧
    resolvedLineSet outerTree [Identifier.line 3, Identifier.line 3] ≠
      intersectAll
        ([Identifier.line 3, Identifier.line 3].map (candLines outerTree)) := by
  refine ⟨by decide, by decide, by decide⟩

/-- Claim C8: whenever some descriptor's candidate line set is empty
(for instance any string or regex descriptor against a code object with no
retrievable source, whose line list is empty), `get_line_numbers` returns the
empty mapping, and it does so by an early `return` rather than by raising. -/
theorem getLineNumbers_empty_mapping (c : CodeTree) (idents : List Identifier)
    (i : Identifier) (hi : i ∈ idents) (hempty : candLines c i = ∅) :
    getLineNumbersMap c idents = [] ∧ resolvedLineSet c idents = ∅ := by
  have hb : hasEmptyCand c idents = true := by
    rw [hasEmptyCand, List.any_eq_true]
    refine ⟨i, hi, ?_⟩
    rw [candLines] at hempty
    cases hc : candList c i with
    | nil => simp [hc]
    | cons x xs => rw [hc] at hempty; simp at hempty
  constructor
  · rw [getLineNumbersMap, hb]
    simp
  · rw [resolvedLineSet, resolvedList, hb]
    simp

/-- Witness for claim C8: a string descriptor against a code object with no
retrievable source. -/
theorem getLineNumbers_empty_mapping_witness :
    getLineNumbersMap noSrcTree [Identifier.strPat "x"] = [] ∧
      resolvedLineSet noSrcTree [Identifier.strPat "x"] = ∅ :=
  getLineNumbers_empty_mapping noSrcTree _ (Identifier.strPat "x")
    (List.mem_singleton.mpr rfl) (by decide)

/-- Claim C1: at the failing input, `get_line_numbers` attaches the shared
physical line to the *enclosing* code object, not the nested one. `outerTree`
spans two source lines, its nested `lamTree` spans one, and both claim line 2
in their line tables; the comparison at util.py line 105 replaces the
recorded owner only when the candidate has *more* source lines, so the
largest span wins and the mapping groups line 2 under the outer unit (id 0)
rather than the nested one (id 1), contrary to the claim and to spec
section 4.1. -/
theorem line_grouped_under_largest_span :
    (lamTree.info.src.getD []).length < (outerTree.info.src.getD []).length ∧
    lamTree.info.coLines = [2] ∧
    getLineNumbersMap outerTree [Identifier.line 2] = [(0, [2])] := by
  refine ⟨by decide, by decide, by decide⟩

/-! ## Theorems about dispatch (claims C2, C3) -/

/-- Live handlers used as concrete dispatch inputs. -/
def hW1 : Handler := { hid := 1, removed := false, trigger := ⟨[]⟩ }

def hW2 : Handler := { hid := 2, removed := false, trigger := ⟨[]⟩ }

def hW3 : Handler := { hid := 3, removed := false, trigger := ⟨[]⟩ }

/-- A handler whose `remove` operation has completed: `removed` is set. -/
def hWr : Handler := { hid := 4, removed := true, trigger := ⟨[]⟩ }

/-- A concrete invocation behaviour: handler 2 returns the DISABLE sentinel,
everyone else continues. -/
def invokeW : Handler → Signal :=
  fun h => if h.hid = 2 then .disable else .cont

/-- Claim C2: when the active handlers are `pre ++ h :: post` with every
handler in `pre` returning a non-disable signal and `h` returning the DISABLE
sentinel, `_process_handlers` invokes exactly `pre ++ [h]` in list order (the
registry dicts preserve insertion order, so this is registration order), no
handler in `post` is invoked, and DISABLE is returned to the event source. -/
theorem dispatch_order_and_shortcircuit (refs : List (Option Handler))
    (invoke : Handler → Signal) (pre : List Handler) (h : Handler)
    (post : List Handler)
    (hact : activeHandlers refs = pre ++ h :: post)
    (hpre : ∀ g ∈ pre, invoke g ≠ .disable)
    (hh : invoke h = .disable) :
    processHandlers refs invoke = (.disable, pre ++ [h]) := by
  rw [processHandlers, hact]
  clear hact
  induction pre with
  | nil => simp [runHandlers, hh]
  | cons g pre ih =>
      have hg : invoke g = .cont := by
        cases hs : invoke g with
        | disable => exact absurd hs (hpre g (List.mem_cons_self g pre))
        | cont => rfl
      have ih2 := ih (fun x hx => hpre x (List.mem_cons_of_mem g hx))
      simp [runHandlers, hg, ih2]

/-- Witness for claim C2: five references (one dead, one removed, three
live); the first live handler continues, the second disables, and the third
is never invoked. -/
theorem dispatch_order_and_shortcircuit_witness :
    processHandlers [some hW1, none, some hWr, some hW2, some hW3] invokeW =
      (.disable, [hW1, hW2]) :=
  dispatch_order_and_shortcircuit _ invokeW [hW1] hW2 [hW3] (by decide)
    (by decide) (by decide)

lemma runHandlers_mem (invoke : Handler → Signal) :
    ∀ l : List Handler, ∀ g ∈ (runHandlers invoke l).2, g ∈ l := by
  intro l
  induction l with
  | nil => intro g hg; simp [runHandlers] at hg
  | cons h rest ih =>
      intro g hg
      cases hs : invoke h <;> simp only [runHandlers, hs] at hg
      · rcases List.mem_singleton.mp hg with rfl
        exact List.mem_cons_self _ _
      · rcases List.mem_cons.mp hg with rfl | hg'
        · exact List.mem_cons_self _ _
        · exact List.mem_cons_of_mem _ (ih g hg')

lemma activeHandlers_not_removed (refs : List (Option Handler)) :
    ∀ g ∈ activeHandlers refs, g.removed = false := by
  intro g hg
  rw [activeHandlers] at hg
  rcases List.mem_filterMap.mp hg with ⟨o, _, hgo⟩
  cases o with
  | none => simp at hgo
  | some h =>
      change (if h.removed = true then none else some h) = some g at hgo
      cases hr : h.removed with
      | true => rw [hr] at hgo; simp at hgo
      | false =>
          rw [hr] at hgo
          simp at hgo
          rw [← hgo]
          exact hr

/-- Claim C3: a handler whose `removed` flag is set is never among the
handlers `_process_handlers` invokes, whatever references are (still) present
in the registry entry being dispatched — the filter at instrumenter.py line
201 skips it. Setting the flag is the first effect of the handler-side
`remove` operation (handler.py, modelled from spec section 4.4's terminal
Removed state). -/
theorem removed_handler_never_invoked (refs : List (Option Handler))
    (invoke : Handler → Signal) (h : Handler) (hrem : h.removed = true) :
    h ∉ (processHandlers refs invoke).2 := by
  intro hmem
  have h1 := runHandlers_mem invoke (activeHandlers refs) h hmem
  have h2 := activeHandlers_not_removed refs h h1
  rw [hrem] at h2
  simp at h2

/-- Witness for claim C3: the removed handler `hWr` is among the registry
references being dispatched, yet it is not invoked. -/
theorem removed_handler_never_invoked_witness :
    hWr ∉ (processHandlers [some hWr, some hW1] invokeW).2 :=
  removed_handler_never_invoked _ invokeW hWr (by decide)

/-! ## Theorems about the registry (claims C4, C5, C10) -/

lemma scheduleRestart_sub (st : InstrState) :
    (scheduleRestart st).globalEvents = st.globalEvents ∧
      (scheduleRestart st).localEvents = st.localEvents ∧
      (scheduleRestart st).registry = st.registry := by
  rw [scheduleRestart]
  split <;> exact ⟨rfl, rfl, rfl⟩

/-- Claim C4: after `submit`, the registry holds a reference to the handler
under its trigger's (code, event kind, line) point — shown at a concrete
input — but, contrary to the claim, `submit` never calls
`sys.monitoring.set_events` / `set_local_events`, so neither the global nor
any per-code subscription bitmask gains the required event kind (first
conjunct, for every state and handler), and a fresh Instrumenter is left with
no subscription at all after submitting a line handler. -/
theorem submit_registers_without_subscribing :
    (∀ st h, (submit st h).globalEvents = st.globalEvents ∧
      (submit st h).localEvents = st.localEvents) ∧
    dictGet ((dictGet ((dictGet ((dictGet (submit initInstr hEx).registry
      (some 1)).getD []) EventType.line).getD []) (some 5)).getD []) 7 =
      some hEx ∧
    (submit initInstr hEx).globalEvents = 0 ∧
    (submit initInstr hEx).localEvents = [] := by
  refine ⟨fun st h => ?_, by decide, by decide, by decide⟩
  rw [submit]
  exact ⟨(scheduleRestart_sub _).1, (scheduleRestart_sub _).2.1⟩

lemma removeStep_id (s : InstrState) (e : TEvent) : removeStep s e = s := by
  rw [removeStep]
  split
  · rfl
  · split
    · rfl
    · split <;> simp only [ite_self]

lemma foldl_removeStep (l : List TEvent) : ∀ st, l.foldl removeStep st = st := by
  induction l with
  | nil => intro st; rfl
  | cons e l ih =>
      intro st
      rw [List.foldl_cons, removeStep_id st e]
      exact ih st

/-- Claim C5: `remove_handler` changes nothing — for every state and handler
it returns the state unchanged (first conjunct), because the guard
`event_handler in handlers` compares the handler object against the integer
`id()` keys that `submit` stored and is therefore always false; in
particular, after submitting `hEx` and then removing it, the registry still
holds the reference (second conjunct), no entry is deleted, and no
subscription bitmask is narrowed. -/
theorem removeHandler_is_noop :
    (∀ st h, removeHandler st h = st) ∧
    dictGet ((dictGet ((dictGet ((dictGet
      (removeHandler (submit initInstr hEx) hEx).registry
      (some 1)).getD []) EventType.line).getD []) (some 5)).getD []) 7 =
      some hEx := by
  refine ⟨fun st h => foldl_removeStep _ st, by decide⟩

/-! ### Re-submission cannot duplicate references (claim C10) -/

/-- Every leaf handler-dict of the registry has pairwise-distinct keys (true
of every Python dict by construction). -/
def RegistryLeafWF (r : Registry) : Prop :=
  ∀ p ∈ r, ∀ q ∈ p.2, ∀ t ∈ q.2, (t.2.map Prod.fst).Nodup

/-- At most one stored reference per handler identity in every leaf dict of
the registry. -/
def registryRefCountOK (r : Registry) (hid : Nat) : Bool :=
  r.all fun p => p.2.all fun q => q.2.all fun t =>
    decide ((t.2.filter fun kv => kv.1 == hid).length ≤ 1)

lemma dictGet_mem {κ α : Type} [DecidableEq κ] :
    ∀ (d : List (κ × α)) (k : κ) (v : α), dictGet d k = some v → (k, v) ∈ d := by
  intro d
  induction d with
  | nil => intro k v h; simp [dictGet] at h
  | cons p rest ih =>
      intro k v h
      rw [dictGet] at h
      by_cases hk : p.1 = k
      · rw [if_pos hk] at h
        have hv : p.2 = v := Option.some.inj h
        have hp : (k, v) = p := by rw [← hk, ← hv]
        rw [← hp]
        exact List.mem_cons_self _ _
      · rw [if_neg hk] at h
        exact List.mem_cons_of_mem _ (ih k v h)

lemma mem_dictSet {κ α : Type} [DecidableEq κ] (k : κ) (v : α) :
    ∀ (d : List (κ × α)), ∀ p ∈ dictSet d k v, p ∈ d ∨ p.2 = v := by
  intro d
  induction d with
  | nil =>
      intro p hp
      rw [dictSet] at hp
      rcases List.mem_singleton.mp hp with rfl
      exact Or.inr rfl
  | cons q rest ih =>
      intro p hp
      rw [dictSet] at hp
      by_cases hk : q.1 = k
      · rw [if_pos hk] at hp
        rcases List.mem_cons.mp hp with rfl | hp'
        · exact Or.inr rfl
        · exact Or.inl (List.mem_cons_of_mem _ hp')
      · rw [if_neg hk] at hp
        rcases List.mem_cons.mp hp with rfl | hp'
        · exact Or.inl (List.mem_cons_self _ _)
        · rcases ih p hp' with h | h
          · exact Or.inl (List.mem_cons_of_mem _ h)
          · exact Or.inr h

lemma keys_dictSet {κ α : Type} [DecidableEq κ] (k : κ) (v : α) :
    ∀ (d : List (κ × α)), ∀ x ∈ (dictSet d k v).map Prod.fst,
      x ∈ d.map Prod.fst ∨ x = k := by
  intro d
  induction d with
  | nil =>
      intro x hx
      rw [dictSet] at hx
      rcases List.mem_singleton.mp hx with rfl
      exact Or.inr rfl
  | cons q rest ih =>
      intro x hx
      rw [dictSet] at hx
      by_cases hk : q.1 = k
      · rw [if_pos hk] at hx
        simp only [List.map_cons] at hx
        rcases List.mem_cons.mp hx with rfl | hx'
        · exact Or.inl (by simp)
        · exact Or.inl (by simp [hx'])
      · rw [if_neg hk] at hx
        simp only [List.map_cons] at hx
        rcases List.mem_cons.mp hx with rfl | hx'
        · exact Or.inl (by simp)
        · rcases ih x hx' with h | h
          · exact Or.inl (by simp [h])
          · exact Or.inr h

lemma nodup_keys_dictSet {κ α : Type} [DecidableEq κ] (k : κ) (v : α) :
    ∀ (d : List (κ × α)), (d.map Prod.fst).Nodup →
      ((dictSet d k v).map Prod.fst).Nodup := by
  intro d
  induction d with
  | nil => intro _; simp [dictSet]
  | cons q rest ih =>
      intro hnd
      simp only [List.map_cons, List.nodup_cons] at hnd
      rw [dictSet]
      by_cases hk : q.1 = k
      · rw [if_pos hk]
        simp only [List.map_cons, List.nodup_cons]
        exact hnd
      · rw [if_neg hk]
        simp only [List.map_cons, List.nodup_cons]
        refine ⟨?_, ih hnd.2⟩
        intro hmem
        rcases keys_dictSet k v rest q.1 hmem with h | h
        · exact hnd.1 h
        · exact hk h

lemma count_le_one_of_nodup {κ α : Type} [DecidableEq κ] (k : κ) :
    ∀ (d : List (κ × α)), (d.map Prod.fst).Nodup →
      (d.filter fun kv => kv.1 == k).length ≤ 1 := by
  intro d
  induction d with
  | nil => intro _; simp
  | cons q rest ih =>
      intro hnd
      simp only [List.map_cons, List.nodup_cons] at hnd
      by_cases hk : q.1 = k
      · have hb : (q.1 == k) = true := beq_iff_eq.mpr hk
        have hempty : (rest.filter fun kv => kv.1 == k) = [] := by
          rw [List.filter_eq_nil_iff]
          intro kv hkv
          simp only [beq_iff_eq]
          intro hkk
          exact hnd.1 (by rw [hk, ← hkk]; exact List.mem_map_of_mem _ hkv)
        rw [List.filter_cons, hb, hempty]
        simp
      · have hb : (q.1 == k) = false := beq_eq_false_iff_ne.mpr hk
        rw [List.filter_cons, hb]
        simpa using ih hnd.2

lemma leafWF_regSet (r : Registry) (code : Option Nat) (et : EventType)
    (ln : Option Nat) (hid : Nat) (h : Handler) (hw : RegistryLeafWF r) :
    RegistryLeafWF (regSet r code et ln hid h) := by
  have htd : ∀ q ∈ (dictGet r code).getD [], ∀ t ∈ q.2,
      (t.2.map Prod.fst).Nodup := by
    cases hg : dictGet r code with
    | none => simp
    | some td0 =>
        intro q hq t ht
        exact hw (code, td0) (dictGet_mem _ _ _ hg) q hq t ht
  have hld : ∀ t ∈ (dictGet ((dictGet r code).getD []) et).getD [],
      (t.2.map Prod.fst).Nodup := by
    cases hg : dictGet ((dictGet r code).getD []) et with
    | none => simp
    | some ld0 =>
        intro t ht
        exact htd (et, ld0) (dictGet_mem _ _ _ hg) t ht
  have hhd : ((((dictGet ((dictGet ((dictGet r code).getD []) et).getD []) ln).getD
      []).map Prod.fst)).Nodup := by
    cases hg : dictGet ((dictGet ((dictGet r code).getD []) et).getD []) ln with
    | none => simp
    | some hd0 => exact hld (ln, hd0) (dictGet_mem _ _ _ hg)
  intro p hp q hq t ht
  rcases mem_dictSet _ _ _ p hp with hpr | hpv
  · exact hw p hpr q hq t ht
  · rw [hpv] at hq
    rcases mem_dictSet _ _ _ q hq with hqt | hqv
    · exact htd q hqt t ht
    · rw [hqv] at ht
      rcases mem_dictSet _ _ _ t ht with htl | htv
      · exact hld t htl
      · rw [htv]
        exact nodup_keys_dictSet _ _ _ hhd

lemma leafWF_submitEvents (h : Handler) :
    ∀ (l : List TEvent) (r : Registry), RegistryLeafWF r →
      RegistryLeafWF (l.foldl (fun r e =>
        match e.etype with
        | .line => regSet r e.code .line e.lineNumber h.hid h
        | .start => regSet r e.code .start none h.hid h
        | .ret => regSet r e.code .ret none h.hid h) r) := by
  intro l
  induction l with
  | nil => intro r hw; exact hw
  | cons e l ih =>
      intro r hw
      rw [List.foldl_cons]
      apply ih
      cases e.etype <;> exact leafWF_regSet _ _ _ _ _ _ hw

lemma leafWF_submit (st : InstrState) (h : Handler)
    (hw : RegistryLeafWF st.registry) : RegistryLeafWF (submit st h).registry := by
  rw [submit]
  rw [(scheduleRestart_sub _).2.2]
  exact leafWF_submitEvents h _ _ hw

lemma leafWF_submitN (h : Handler) :
    ∀ (n : Nat) (st : InstrState), RegistryLeafWF st.registry →
      RegistryLeafWF (submitN h n st).registry := by
  intro n
  induction n with
  | zero => intro st hw; exact hw
  | succ n ih =>
      intro st hw
      rw [submitN]
      exact ih _ (leafWF_submit st h hw)

/-- Claim C10: each leaf registry dict keys the stored weak reference by
`id(event_handler)`, so re-submitting the same handler overwrites the same
key: after any number of submissions of `h` from any well-formed registry,
every leaf dict carries at most one reference under `h`'s identity. -/
theorem resubmission_no_duplicate_refs (st : InstrState) (h : Handler)
    (n : Nat) (hwf : RegistryLeafWF st.registry) :
    registryRefCountOK (submitN h n st).registry h.hid = true := by
  have hw := leafWF_submitN h n st hwf
  rw [registryRefCountOK, List.all_eq_true]
  intro p hp
  rw [List.all_eq_true]
  intro q hq
  rw [List.all_eq_true]
  intro t ht
  rw [decide_eq_true_iff]
  exact count_le_one_of_nodup _ _ (hw p hp q hq t ht)

/-- Witness for claim C10: submitting `hEx` three times into a fresh
Instrumenter leaves a single reference under its identity. -/
theorem resubmission_no_duplicate_refs_witness :
    registryRefCountOK (submitN hEx 3 initInstr).registry hEx.hid = true :=
  resubmission_no_duplicate_refs initInstr hEx 3 (by
    intro p hp
    simp [initInstr] at hp)

/-! ## Theorems about binding errors (claim C7) -/

lemma bindArg_error (locals : List (String × PyVal)) (retval : Option PyVal)
    (a : String) (h1 : a ≠ "_frame") (h2 : a ≠ "_retval")
    (h3 : dictGet locals a = none) :
    bindArg locals retval a = .error "Argument not found in frame locals." := by
  unfold bindArg
  rw [if_neg h1, if_neg h2, h3]

lemma gatherArgs_error_of_bad (locals : List (String × PyVal))
    (retval : Option PyVal) (a : String) :
    ∀ names : List String, a ∈ names → a ≠ "_frame" → a ≠ "_retval" →
      dictGet locals a = none →
      ∃ e, gatherArgs locals retval names = .error e := by
  intro names
  induction names with
  | nil => intro h _ _ _; simp at h
  | cons b rest ih =>
      intro hmem h1 h2 h3
      rw [gatherArgs]
      by_cases hb : b = a
      · subst hb
        rw [bindArg_error locals retval b h1 h2 h3]
        exact ⟨_, rfl⟩
      · cases hone : bindArg locals retval b with
        | error e => exact ⟨e, rfl⟩
        | ok v =>
            have hmem' : a ∈ rest := by
              rcases List.mem_cons.mp hmem with h | h
              · exact absurd h.symm hb
              · exact h
            rcases ih hmem' h1 h2 h3 with ⟨e, he⟩
            rw [he]
            exact ⟨e, rfl⟩

lemma callInFrame_error_of_bad (f : PyFunc) (locals : List (String × PyVal))
    (retval : Option PyVal) (a : String) (ha : a ∈ f.argNames)
    (h1 : a ≠ "_frame") (h2 : a ≠ "_retval") (h3 : dictGet locals a = none) :
    ∃ e, callInFrame f locals retval = .error e := by
  rcases gatherArgs_error_of_bad locals retval a f.argNames ha h1 h2 h3 with
    ⟨e, he⟩
  rw [callInFrame, he]
  exact ⟨e, rfl⟩

lemma runActions_append_error (locals : List (String × PyVal))
    (retval : Option PyVal) (f : PyFunc) (e : String)
    (hf : callInFrame f locals retval = .error e) :
    ∀ (pre post : List PyFunc),
      (∀ g ∈ pre, isOkE (callInFrame g locals retval) = true) →
      runActions locals retval (pre ++ f :: post) = (pre.length, some e) := by
  intro pre
  induction pre with
  | nil =>
      intro post _
      rw [List.nil_append, runActions, hf]
      rfl
  | cons g pre ih =>
      intro post hpre
      have hg := hpre g (List.mem_cons_self g pre)
      cases hc : callInFrame g locals retval with
      | error e2 => rw [hc] at hg; simp [isOkE] at hg
      | ok v =>
          rw [List.cons_append, runActions, hc,
            ih post fun x hx => hpre x (List.mem_cons_of_mem g hx)]
          simp

/-- Claim C7: an action whose declared parameter `a` is neither `_frame` nor
`_retval` nor bound in the frame's locals fails with a binding TypeError at
invocation time (first conjunct); within its handler this aborts the
remaining actions — only the `pre` actions before it complete (second and
third conjuncts) — yet dispatch still invokes the subsequent handler `h2`
(fourth conjunct: the invocation trace is `[h1, h2]`), because the contained
error makes `h1`'s invocation return a non-DISABLE signal (spec section 7;
handler.py is not in src/ and its error containment is modelled from the
spec in `invokeWithActions`). -/
theorem binding_error_contained (f : PyFunc) (a : String)
    (locals : List (String × PyVal)) (retval : Option PyVal)
    (actsOf : Handler → List PyFunc) (sig : Handler → Signal)
    (h1 h2 : Handler) (pre post : List PyFunc)
    (ha : a ∈ f.argNames) (hfr : a ≠ "_frame") (hrv : a ≠ "_retval")
    (hloc : dictGet locals a = none)
    (hacts : actsOf h1 = pre ++ f :: post)
    (hpre : ∀ g ∈ pre, isOkE (callInFrame g locals retval) = true)
    (hr1 : h1.removed = false) (hr2 : h2.removed = false) :
    isOkE (callInFrame f locals retval) = false ∧
    (runActions locals retval (actsOf h1)).1 = pre.length ∧
    (runActions locals retval (actsOf h1)).2.isSome = true ∧
    (processHandlers [some h1, some h2]
        (invokeWithActions actsOf sig locals retval)).2 = [h1, h2] := by
  rcases callInFrame_error_of_bad f locals retval a ha hfr hrv hloc with ⟨e, he⟩
  have hrun : runActions locals retval (actsOf h1) = (pre.length, some e) := by
    rw [hacts]
    exact runActions_append_error locals retval f e he pre post hpre
  have hinv1 : invokeWithActions actsOf sig locals retval h1 = .cont := by
    rw [invokeWithActions, hrun]
  have hact : activeHandlers [some h1, some h2] = [h1, h2] := by
    simp [activeHandlers, hr1, hr2]
  refine ⟨by rw [he]; rfl, by rw [hrun], by rw [hrun]; rfl, ?_⟩
  rw [processHandlers, hact]
  cases hs : invokeWithActions actsOf sig locals retval h2 with
  | disable => simp [runHandlers, hinv1, hs]
  | cont => simp [runHandlers, hinv1, hs]

/-- Concrete inputs for the claim C7 witness: `fOkW` reads the local `x`
(present), `fBadW` reads `y` (absent). -/
def fOkW : PyFunc := { argNames := ["x"], body := fun _ => .num 0 }

def fBadW : PyFunc := { argNames := ["y"], body := fun _ => .num 0 }

def localsW : List (String × PyVal) := [("x", .num 5)]

/-- Handler 1 runs `fOkW` then `fBadW`; handler 2 runs just `fOkW`. -/
def actsOfW : Handler → List PyFunc :=
  fun h => if h.hid = 1 then [fOkW, fBadW] else [fOkW]

def sigW : Handler → Signal := fun _ => .cont

/-- Witness for claim C7. -/
theorem binding_error_contained_witness :
    isOkE (callInFrame fBadW localsW none) = false ∧
    (runActions localsW none (actsOfW hW1)).1 = [fOkW].length ∧
    (runActions localsW none (actsOfW hW1)).2.isSome = true ∧
    (processHandlers [some hW1, some hW2]
        (invokeWithActions actsOfW sigW localsW none)).2 = [hW1, hW2] :=
  binding_error_contained fBadW "y" localsW none actsOfW sigW hW1 hW2
    [fOkW] [] (by decide) (by decide) (by decide) (by decide) rfl
    (by
      intro g hg
      rcases List.mem_singleton.mp hg with rfl
      rfl)
    (by decide) (by decide)

/-! ## Theorems about the adaptive cache (claim C9) -/

lemma adjust_bounds (s : CacheState) (h1 : 64 ≤ s.maxsize)
    (h2 : s.maxsize ≤ 10000) :
    64 ≤ (adjustCacheSize s).maxsize ∧ (adjustCacheSize s).maxsize ≤ 10000 := by
  rw [adjustCacheSize]
  split
  · exact ⟨h1, h2⟩
  · split
    · constructor
      · show 64 ≤ min (s.maxsize * 6 / 5) 10000
        omega
      · show min (s.maxsize * 6 / 5) 10000 ≤ 10000
        omega
    · split
      · constructor
        · show 64 ≤ max (s.maxsize * 4 / 5) 64
          omega
        · show max (s.maxsize * 4 / 5) 64 ≤ 10000
          omega
      · exact ⟨h1, h2⟩

lemma cacheStep2_maxsize (compute : Nat → Nat) (s : CacheState) (k : Nat) :
    (cacheStep2 compute s k).maxsize = s.maxsize := by
  simp only [cacheStep2]
  split
  · rfl
  · split <;> rfl

lemma cacheAccess_bounds (compute : Nat → Nat) (s : CacheState) (k : Nat)
    (h1 : 64 ≤ s.maxsize) (h2 : s.maxsize ≤ 10000) :
    64 ≤ (cacheAccess compute s k).maxsize ∧
      (cacheAccess compute s k).maxsize ≤ 10000 := by
  have hadj := adjust_bounds { s with accessCount := s.accessCount + 1 } h1 h2
  simp only [cacheAccess]
  rw [cacheStep2_maxsize]
  split
  · exact hadj
  · exact ⟨h1, h2⟩

lemma runAccesses_bounds (compute : Nat → Nat) (ks : List Nat) :
    ∀ s : CacheState, 64 ≤ s.maxsize → s.maxsize ≤ 10000 →
      64 ≤ (runAccesses compute s ks).maxsize ∧
        (runAccesses compute s ks).maxsize ≤ 10000 := by
  induction ks with
  | nil => intro s h1 h2; exact ⟨h1, h2⟩
  | cons k ks ih =>
      intro s h1 h2
      rw [runAccesses, List.foldl_cons]
      rcases cacheAccess_bounds compute s k h1 h2 with ⟨g1, g2⟩
      exact ih (cacheAccess compute s k) g1 g2

/-- Claim C9: starting from any initial size within the hard floor 64 and the
hard ceiling 10000, `maxsize` remains within `[64, 10000]` across any
sequence of wrapper calls, and `cache_clear` leaves zero stored entries and
zero hit and miss counters. -/
theorem adaptive_cache_bounds_and_clear (initialSize : Nat)
    (compute : Nat → Nat) (ks : List Nat) (s : CacheState)
    (hlo : 64 ≤ initialSize) (hhi : initialSize ≤ 10000) :
    64 ≤ (runAccesses compute (cacheInit initialSize) ks).maxsize ∧
    (runAccesses compute (cacheInit initialSize) ks).maxsize ≤ 10000 ∧
    (cacheClear s).cache.length = 0 ∧ (cacheClear s).hits = 0 ∧
    (cacheClear s).misses = 0 := by
  rcases runAccesses_bounds compute ks (cacheInit initialSize) hlo hhi with
    ⟨g1, g2⟩
  exact ⟨g1, g2, rfl, rfl, rfl⟩

/-- Witness for claim C9: the default initial size 256, a short key sequence,
and a cleared cache. -/
theorem adaptive_cache_bounds_and_clear_witness :
    64 ≤ (runAccesses id (cacheInit 256) [1, 2, 1]).maxsize ∧
    (runAccesses id (cacheInit 256) [1, 2, 1]).maxsize ≤ 10000 ∧
    (cacheClear (cacheInit 256)).cache.length = 0 ∧
    (cacheClear (cacheInit 256)).hits = 0 ∧
    (cacheClear (cacheInit 256)).misses = 0 :=
  adaptive_cache_bounds_and_clear 256 id [1, 2, 1] (cacheInit 256) (by decide)
    (by decide)

end DoWhen
